import Mathlib

/-!
Verification of the result-shaping and follow/like mutation logic of
`RealSocialService` (src/lib/services/RealSocialService.ts) of the
social.ondb.app repository, against the query-contract specification.

The query/JOIN engine itself lives in the external `@onchaindb/sdk`
package and is not part of the repository; where its behaviour is
needed it is modelled from the specification (definitions marked
`Modelled from the spec:`).  Timestamps (ISO date strings compared via
`Date.getTime()`) are modelled as natural numbers; wallet addresses and
ids are strings.
-/

/-- Outcome of `execute()` as observed by the application: the promise can
reject (`throw`), or resolve with a response whose `records` field may be
absent (`ok none`) or present (`ok (some rs)`). -/
inductive QResult (α : Type) where
  | throw : QResult α
  | ok : Option α → QResult α
deriving DecidableEq

/-- A record of the `follows` collection (interface `Follow` in
src/lib/models.ts): `updated_at` may be absent, in which case readers
fall back to `created_at`. -/
structure FollowRecord where
  id : String
  follower : String
  following : String
  status : String
  created_at : Nat
  updated_at : Option Nat
deriving DecidableEq

/-- The sort key used by all follow readers:
`new Date(r.updated_at || r.created_at).getTime()`. -/
def FollowRecord.time (r : FollowRecord) : Nat :=
  r.updated_at.getD r.created_at

/-- A record of the `likes` collection (interface `Like` in
src/lib/models.ts). -/
structure LikeRecord where
  id : String
  user : String
  tweet_id : String
  reaction_type : String
  created_at : Nat
deriving DecidableEq

/-- Modelled from the spec: the Query Executor of the external
`@onchaindb/sdk` (not in this repository) selects the records of the
collection satisfying the conjunction of the field predicates,
preserving natural storage order, and then applies `offset` followed by
`limit` truncation. -/
def execQuery {α : Type} (store : List α) (p : α → Bool) (off lim : Nat) : List α :=
  ((store.filter p).drop off).take lim

/-- Modelled from the spec: `client.store({collection, data})` appends
the given records to the collection ("Mutation: every subsequent
follow/unfollow, appended not updated"). -/
def storeAppend {α : Type} (store : List α) (recs : List α) : List α :=
  store ++ recs

/-- One step of selecting the latest record: keep the candidate with the
strictly larger time, the earlier one on ties. -/
def latestStep (best c : FollowRecord) : FollowRecord :=
  if best.time < c.time then c else best

/-- Head of `records.sort((a, b) => time(b) - time(a))`: the sort is stable
and only its first element is ever consumed, so this is the first record
of maximal time (`none` when the list is empty). -/
def latestOfList : List FollowRecord → Option FollowRecord
  | [] => none
  | r :: rs => some (rs.foldl latestStep r)

/-- The conjunction of the two `whereField(..).equals(..)` predicates of
the follow lookup queries. -/
def followMatches (follower following : String) (r : FollowRecord) : Bool :=
  r.follower == follower && r.following == following

/-- The records returned by the follow lookup query:
`.whereField("follower").equals(f).whereField("following").equals(g)
 .selectAll().limit(10).execute()`. -/
def followCandidates (store : List FollowRecord) (follower following : String) :
    List FollowRecord :=
  execQuery store (followMatches follower following) 0 10

/-- Core of `isFollowing` once the records are in hand: sort by time
descending and test `sortedRecords[0].status === "active"`; an empty
record list yields `false`. -/
def isFollowingRecords (records : List FollowRecord) : Bool :=
  match latestOfList records with
  | none => false
  | some r => r.status == "active"

/-- Model of `RealSocialService.isFollowing` as a function of the query outcome:
a rejected query (caught) or an absent/empty `records` field yields
`false`. -/
def isFollowingQuery : QResult (List FollowRecord) → Bool
  | QResult.throw => false
  | QResult.ok none => false
  | QResult.ok (some records) => isFollowingRecords records

/-- Composition of `RealSocialService.isFollowing` with the modelled executor. -/
def isFollowing (store : List FollowRecord) (follower following : String) : Bool :=
  isFollowingQuery (QResult.ok (some (followCandidates store follower following)))

/-- The last eight characters of `s`, JavaScript `s.slice(-8)` (all of `s`
when it is shorter). -/
def sliceLast8 (s : String) : String :=
  String.mk (s.toList.drop (s.length - 8))

/-- The id generated for a brand-new follow relationship: the literal
prefix `follow_`, the last eight characters of each address and the
current timestamp, joined by underscores. -/
def freshFollowId (follower following : String) (now : Nat) : String :=
  "follow_" ++ sliceLast8 follower ++ "_" ++ sliceLast8 following ++ "_" ++ toString now

/-- Model of `RealSocialService.followUser`: returns the boolean result together
with the `follows` collection after the call.  The lookup uses
`limit(10)`; the sort runs in place, so `existingFollow.records[0]` and
`latestFollow` are the same record when the `created_at` of a refollow
is taken. -/
def followUser (store : List FollowRecord) (follower following : String) (now : Nat) :
    Bool × List FollowRecord :=
  if follower = following then (false, store)
  else
    match latestOfList (followCandidates store follower following) with
    | some latest =>
        if latest.status = "active" then (false, store)
        else
          (true, storeAppend store
            [⟨latest.id, follower, following, "active", latest.created_at, some now⟩])
    | none =>
        (true, storeAppend store
          [⟨freshFollowId follower following now, follower, following, "active",
            now, some now⟩])

/-- Model of `RealSocialService.unfollowUser`: stores a new version with status
`"inactive"`, the latest version's id and `created_at`, and `updated_at`
advanced; no-op when there is no record or the latest version is not
active. -/
def unfollowUser (store : List FollowRecord) (follower following : String) (now : Nat) :
    Bool × List FollowRecord :=
  match latestOfList (followCandidates store follower following) with
  | none => (false, store)
  | some latest =>
      if latest.status = "active" then
        (true, storeAppend store
          [⟨latest.id, follower, following, "inactive", latest.created_at, some now⟩])
      else (false, store)

/-- The conjunction of the two predicates of the like lookup queries. -/
def likeMatches (userAddress tweetId : String) (l : LikeRecord) : Bool :=
  l.user == userAddress && l.tweet_id == tweetId

/-- Model of `RealSocialService.likeTweet`: checks for an existing like of the
pair with a `limit(1)` query and stores a fresh `"like"` record only
when none exists. -/
def likeTweet (store : List LikeRecord) (userAddress tweetId : String) (now : Nat)
    (freshId : String) : Bool × List LikeRecord :=
  let existing := execQuery store (likeMatches userAddress tweetId) 0 1
  if 0 < existing.length then (false, store)
  else (true, storeAppend store [⟨freshId, userAddress, tweetId, "like", now⟩])

theorem latestStep_time_left (a b : FollowRecord) : a.time ≤ (latestStep a b).time := by
  unfold latestStep
  split
  · omega
  · exact Nat.le_refl _

theorem latestStep_time_right (a b : FollowRecord) : b.time ≤ (latestStep a b).time := by
  unfold latestStep
  split
  · exact Nat.le_refl _
  · omega

theorem latestStep_cases (a b : FollowRecord) : latestStep a b = a ∨ latestStep a b = b := by
  unfold latestStep
  split
  · exact Or.inr rfl
  · exact Or.inl rfl

theorem foldl_latest_spec (as : List FollowRecord) (a : FollowRecord) :
    as.foldl latestStep a ∈ a :: as ∧
      ∀ s ∈ a :: as, s.time ≤ (as.foldl latestStep a).time := by
  induction as generalizing a with
  | nil =>
      refine ⟨List.mem_singleton_self a, ?_⟩
      intro s hs
      rw [List.mem_singleton] at hs
      subst hs
      exact Nat.le_refl _
  | cons b bs ih =>
      obtain ⟨hmem, hmax⟩ := ih (latestStep a b)
      constructor
      · simp only [List.foldl_cons]
        rcases List.mem_cons.mp hmem with h | h
        · rcases latestStep_cases a b with hc | hc
          · rw [h, hc]
            exact List.mem_cons_self _ _
          · rw [h, hc]
            exact List.mem_cons_of_mem _ (List.mem_cons_self _ _)
        · exact List.mem_cons_of_mem _ (List.mem_cons_of_mem _ h)
      · intro s hs
        simp only [List.foldl_cons]
        rcases List.mem_cons.mp hs with h | h
        · subst h
          exact Nat.le_trans (latestStep_time_left s b) (hmax _ (List.mem_cons_self _ _))
        · rcases List.mem_cons.mp h with h2 | h2
          · subst h2
            exact Nat.le_trans (latestStep_time_right a s) (hmax _ (List.mem_cons_self _ _))
          · exact hmax _ (List.mem_cons_of_mem _ h2)

theorem latestOfList_spec (l : List FollowRecord) (r : FollowRecord)
    (h : latestOfList l = some r) : r ∈ l ∧ ∀ s ∈ l, s.time ≤ r.time := by
  cases l with
  | nil => cases h
  | cons a as =>
      obtain ⟨hmem, hmax⟩ := foldl_latest_spec as a
      have hr : as.foldl latestStep a = r := by
        simpa [latestOfList] using h
      exact ⟨hr ▸ hmem, hr ▸ hmax⟩

theorem latestOfList_eq_none (l : List FollowRecord) :
    latestOfList l = none ↔ l = [] := by
  cases l with
  | nil => simp [latestOfList]
  | cons a as => simp [latestOfList]

theorem latest_max_unique (l : List FollowRecord)
    (hd : l.Pairwise (fun a b => a.time ≠ b.time))
    (r r2 : FollowRecord) (hr : r ∈ l) (hr2 : r2 ∈ l)
    (hm : ∀ s ∈ l, s.time ≤ r.time) (hm2 : ∀ s ∈ l, s.time ≤ r2.time) : r = r2 := by
  by_contra hne
  have hsym : Symmetric (fun a b : FollowRecord => a.time ≠ b.time) :=
    fun _ _ h => Ne.symm h
  have hneq : r.time ≠ r2.time := hd.forall hsym hr hr2 hne
  have h1 : r.time ≤ r2.time := hm2 r hr
  have h2 : r2.time ≤ r.time := hm r2 hr2
  exact hneq (Nat.le_antisymm h1 h2)

theorem execQuery_one_pos (l : List LikeRecord) (p : LikeRecord → Bool) :
    0 < (execQuery l p 0 1).length ↔ l.any p = true := by
  show 0 < ((l.filter p).take 1).length ↔ l.any p = true
  rw [List.length_take, List.any_eq_true]
  constructor
  · intro h
    have hpos : 0 < (l.filter p).length := lt_of_lt_of_le h (Nat.min_le_right _ _)
    obtain ⟨x, hx⟩ := List.exists_mem_of_length_pos hpos
    obtain ⟨hxl, hpx⟩ := List.mem_filter.mp hx
    exact ⟨x, hxl, hpx⟩
  · rintro ⟨x, hxl, hpx⟩
    have hx : x ∈ l.filter p := List.mem_filter.mpr ⟨hxl, hpx⟩
    have hpos : 0 < (l.filter p).length := List.length_pos.mpr (List.ne_nil_of_mem hx)
    omega

/-- Eleven stored versions of the pair (u1, u2): ten inactive versions at
storage positions 0..9 with id `fa`, then an active version with id `fb`
and the most recent timestamp stored last. -/
def limitStore : List FollowRecord :=
  (List.range 10).map (fun i => ⟨"fa", "u1", "u2", "inactive", 0, some i⟩)
    ++ [⟨"fb", "u1", "u2", "active", 0, some 100⟩]

/-- Eleven stored versions of the pair (u1, u2), all active: ten with id
`fa` at positions 0..9, then one with id `fb`, `created_at` 50 and the
most recent timestamp stored last. -/
def limitStore2 : List FollowRecord :=
  (List.range 10).map (fun i => ⟨"fa", "u1", "u2", "active", 0, some i⟩)
    ++ [⟨"fb", "u1", "u2", "active", 50, some 100⟩]

/-- Claim C1 fails as stated: with eleven stored versions of the pair
(u1, u2), the record with the most recent timestamp among all matching
records is active, yet `isFollowing` returns `false` — the lookup is
issued with `limit(10)`, so the executor truncates the latest version
away and only the ten older inactive versions are inspected. -/
theorem isFollowing_all_records_counterexample :
    isFollowing limitStore "u1" "u2" = false
    ∧ latestOfList (limitStore.filter (followMatches "u1" "u2"))
        = some ⟨"fb", "u1", "u2", "active", 0, some 100⟩
    ∧ (⟨"fb", "u1", "u2", "active", 0, some 100⟩ : FollowRecord).status = "active" := by
  decide

/-- Claim C1 (amended): `isFollowing` returns `true` iff, among the at
most ten candidate records returned by the `limit(10)` lookup for the
pair, the record with the most recent `updated_at` (falling back to
`created_at`) has status `"active"`; with no candidates it returns
`false`.  Candidate timestamps are assumed pairwise distinct so that
"the record with the most recent timestamp" is well defined. -/
theorem isFollowing_latest_active (store : List FollowRecord) (f g : String)
    (hd : (followCandidates store f g).Pairwise (fun a b => a.time ≠ b.time)) :
    isFollowing store f g = true ↔
      ∃ r ∈ followCandidates store f g,
        r.status = "active" ∧ ∀ s ∈ followCandidates store f g, s.time ≤ r.time := by
  cases hl : latestOfList (followCandidates store f g) with
  | none =>
      have hnil : followCandidates store f g = [] := (latestOfList_eq_none _).mp hl
      have hF : isFollowing store f g = false := by
        show isFollowingRecords (followCandidates store f g) = false
        unfold isFollowingRecords
        rw [hl]
      rw [hF, hnil]
      simp
  | some r =>
      obtain ⟨hmem, hmax⟩ := latestOfList_spec _ r hl
      have hF : isFollowing store f g = (r.status == "active") := by
        show isFollowingRecords (followCandidates store f g) = (r.status == "active")
        unfold isFollowingRecords
        rw [hl]
      rw [hF, beq_iff_eq]
      constructor
      · intro hact
        exact ⟨r, hmem, hact, hmax⟩
      · rintro ⟨r2, hr2, hact2, hmax2⟩
        have heq : r = r2 := latest_max_unique _ hd r r2 hmem hr2 hmax hmax2
        rw [heq]
        exact hact2

/-- The two versioned records of the spec's Scenario C: an active version
with timestamp 1 followed by an inactive version with timestamp 2. -/
def followA : FollowRecord := ⟨"f1", "u1", "u2", "active", 0, some 1⟩

def followB : FollowRecord := ⟨"f1", "u1", "u2", "inactive", 0, some 2⟩

def scenarioCStore : List FollowRecord := [followA, followB]

theorem isFollowing_latest_active_witness :
    isFollowing scenarioCStore "u1" "u2" = false := by
  have h := isFollowing_latest_active scenarioCStore "u1" "u2" (by decide)
  cases hb : isFollowing scenarioCStore "u1" "u2" with
  | false => rfl
  | true => exact absurd (h.mp hb) (by decide)

/-- Claim C2 fails as stated: with eleven stored versions of the pair,
`unfollowUser` stores a record bearing id `fa` and `created_at` 0, while
the latest existing version of the pair has id `fb` and `created_at` 50
— the `limit(10)` lookup truncates the latest version away. -/
theorem unfollow_latest_version_counterexample :
    unfollowUser limitStore2 "u1" "u2" 200
        = (true, limitStore2 ++ [⟨"fa", "u1", "u2", "inactive", 0, some 200⟩])
    ∧ latestOfList (limitStore2.filter (followMatches "u1" "u2"))
        = some ⟨"fb", "u1", "u2", "active", 50, some 100⟩
    ∧ ("fa" : String) ≠ "fb" := by
  decide

/-- Claim C2 (amended): follow-state mutations are append-only —
`followUser` and `unfollowUser` only ever append to the `follows`
collection; when `unfollowUser` stores, the new record bears the id and
`created_at` of the latest among the (at most ten) records returned by
the pair lookup, status `"inactive"` and `updated_at` advanced to the
current time; `followUser` on a pair of distinct addresses whose latest
fetched version is inactive appends a new version reusing that id with
status `"active"`; `followUser` on a pair with no prior records appends
a record with a freshly generated id and status `"active"`. -/
theorem follow_mutations_append_only (store : List FollowRecord) (f g : String) (now : Nat) :
    (∃ tail, (followUser store f g now).2 = store ++ tail)
    ∧ (∃ tail, (unfollowUser store f g now).2 = store ++ tail)
    ∧ (∀ latest, latestOfList (followCandidates store f g) = some latest →
        latest.status = "active" →
          unfollowUser store f g now
            = (true, store ++ [⟨latest.id, f, g, "inactive", latest.created_at, some now⟩]))
    ∧ (∀ latest, latestOfList (followCandidates store f g) = some latest →
        latest.status ≠ "active" → f ≠ g →
          followUser store f g now
            = (true, store ++ [⟨latest.id, f, g, "active", latest.created_at, some now⟩]))
    ∧ (latestOfList (followCandidates store f g) = none → f ≠ g →
        followUser store f g now
          = (true, store ++ [⟨freshFollowId f g now, f, g, "active", now, some now⟩])) := by
  refine ⟨?_, ?_, ?_, ?_, ?_⟩
  · unfold followUser storeAppend
    split
    · exact ⟨[], by simp⟩
    · cases latestOfList (followCandidates store f g) with
      | some latest =>
          simp only
          split
          · exact ⟨[], by simp⟩
          · exact ⟨_, rfl⟩
      | none => exact ⟨_, rfl⟩
  · unfold unfollowUser storeAppend
    cases latestOfList (followCandidates store f g) with
    | some latest =>
        simp only
        split
        · exact ⟨_, rfl⟩
        · exact ⟨[], by simp⟩
    | none => exact ⟨[], by simp⟩
  · intro latest hl hact
    simp only [unfollowUser, storeAppend, hl, if_pos hact]
  · intro latest hl hstat hfg
    simp only [followUser, storeAppend, if_neg hfg, hl, if_neg hstat]
  · intro hl hfg
    simp only [followUser, storeAppend, if_neg hfg, hl]

/-- A pair whose single stored version is inactive. -/
def refollowStore : List FollowRecord := [⟨"f1", "u1", "u2", "inactive", 3, some 4⟩]

/-- A pair whose single stored version is active. -/
def unfollowStore : List FollowRecord := [⟨"f1", "u1", "u2", "active", 3, some 4⟩]

theorem follow_mutations_append_only_witness :
    unfollowUser unfollowStore "u1" "u2" 9
        = (true, unfollowStore ++ [⟨"f1", "u1", "u2", "inactive", 3, some 9⟩])
    ∧ followUser refollowStore "u1" "u2" 9
        = (true, refollowStore ++ [⟨"f1", "u1", "u2", "active", 3, some 9⟩])
    ∧ followUser [] "u1" "u2" 9
        = (true, [] ++ [⟨freshFollowId "u1" "u2" 9, "u1", "u2", "active", 9, some 9⟩]) := by
  refine ⟨?_, ?_, ?_⟩
  · exact (follow_mutations_append_only unfollowStore "u1" "u2" 9).2.2.1
      ⟨"f1", "u1", "u2", "active", 3, some 4⟩ (by decide) rfl
  · exact (follow_mutations_append_only refollowStore "u1" "u2" 9).2.2.2.1
      ⟨"f1", "u1", "u2", "inactive", 3, some 4⟩ (by decide) (by decide) (by decide)
  · exact (follow_mutations_append_only [] "u1" "u2" 9).2.2.2.2 (by decide) (by decide)

/-- Claim C5: selecting the latest record is stable under permutation of
the candidate list when the timestamps are pairwise distinct, and hence
the boolean follow state computed from the candidates does not depend on
the order in which the store returns them. -/
theorem latest_perm_stable (l m : List FollowRecord) (hne : l ≠ [])
    (hp : l.Perm m) (hd : l.Pairwise (fun a b => a.time ≠ b.time)) :
    latestOfList l = latestOfList m ∧ isFollowingRecords l = isFollowingRecords m := by
  have hne2 : m ≠ [] := by
    intro h
    subst h
    exact hne hp.eq_nil
  obtain ⟨r, hr⟩ : ∃ r, latestOfList l = some r := by
    cases hL : latestOfList l with
    | none => exact absurd ((latestOfList_eq_none l).mp hL) hne
    | some r => exact ⟨r, rfl⟩
  obtain ⟨r2, hr2⟩ : ∃ r2, latestOfList m = some r2 := by
    cases hM : latestOfList m with
    | none => exact absurd ((latestOfList_eq_none m).mp hM) hne2
    | some r2 => exact ⟨r2, rfl⟩
  obtain ⟨hmem, hmax⟩ := latestOfList_spec l r hr
  obtain ⟨hmem2, hmax2⟩ := latestOfList_spec m r2 hr2
  have hmem2l : r2 ∈ l := hp.mem_iff.mpr hmem2
  have hmax2l : ∀ s ∈ l, s.time ≤ r2.time := fun s hs => hmax2 s (hp.subset hs)
  have heq : r = r2 := latest_max_unique l hd r r2 hmem hmem2l hmax hmax2l
  constructor
  · rw [hr, hr2, heq]
  · unfold isFollowingRecords
    rw [hr, hr2, heq]

theorem latest_perm_stable_witness :
    latestOfList [followA, followB] = latestOfList [followB, followA]
    ∧ isFollowingRecords [followA, followB] = isFollowingRecords [followB, followA] :=
  latest_perm_stable [followA, followB] [followB, followA] (by decide)
    (List.Perm.swap followB followA []) (by decide)

/-- Claim C9 fails as stated: with eleven stored versions of the pair
whose latest version is active, `followUser` is required to return
`false` without storing, yet it returns `true` and appends a new active
version — the `limit(10)` lookup only sees the ten older inactive
versions. -/
theorem follow_active_guard_counterexample :
    followUser limitStore "u1" "u2" 200
        = (true, limitStore ++ [⟨"fa", "u1", "u2", "active", 0, some 200⟩])
    ∧ latestOfList (limitStore.filter (followMatches "u1" "u2"))
        = some ⟨"fb", "u1", "u2", "active", 0, some 100⟩ := by
  decide

/-- Claim C9 (amended): `followUser` on a self-follow returns `false`
and leaves the collection unchanged; `followUser` returns `false`
without storing when the latest among the (at most ten) fetched records
is active; `unfollowUser` returns `false` without storing when no
records exist for the pair or the latest fetched record is not active. -/
theorem follow_guard_noops (store : List FollowRecord) (f g a : String) (now : Nat) :
    followUser store a a now = (false, store)
    ∧ (∀ latest, latestOfList (followCandidates store f g) = some latest →
        latest.status = "active" → followUser store f g now = (false, store))
    ∧ (store.filter (followMatches f g) = [] →
        unfollowUser store f g now = (false, store))
    ∧ (∀ latest, latestOfList (followCandidates store f g) = some latest →
        latest.status ≠ "active" → unfollowUser store f g now = (false, store)) := by
  refine ⟨?_, ?_, ?_, ?_⟩
  · simp [followUser]
  · intro latest hl hact
    by_cases hfg : f = g
    · simp [followUser, hfg]
    · simp only [followUser, if_neg hfg, hl, if_pos hact]
  · intro hnil
    have hcand : followCandidates store f g = [] := by
      simp [followCandidates, execQuery, hnil]
    simp only [unfollowUser, hcand, latestOfList]
  · intro latest hl hstat
    simp only [unfollowUser, hl, if_neg hstat]

theorem follow_guard_noops_witness :
    followUser unfollowStore "u1" "u1" 9 = (false, unfollowStore)
    ∧ followUser unfollowStore "u1" "u2" 9 = (false, unfollowStore)
    ∧ unfollowUser [] "u1" "u2" 9 = (false, [])
    ∧ unfollowUser refollowStore "u1" "u2" 9 = (false, refollowStore) := by
  refine ⟨?_, ?_, ?_, ?_⟩
  · exact (follow_guard_noops unfollowStore "u1" "u2" "u1" 9).1
  · exact (follow_guard_noops unfollowStore "u1" "u2" "u1" 9).2.1
      ⟨"f1", "u1", "u2", "active", 3, some 4⟩ (by decide) rfl
  · exact (follow_guard_noops [] "u1" "u2" "u1" 9).2.2.1 rfl
  · exact (follow_guard_noops refollowStore "u1" "u2" "u1" 9).2.2.2
      ⟨"f1", "u1", "u2", "inactive", 3, some 4⟩ (by decide) (by decide)

/-- Claim C10: `likeTweet` preserves like uniqueness per (user, tweet)
pair — when a matching like record exists it returns `false` and leaves
the collection unchanged, otherwise it appends exactly one new record
with reaction type `"like"` and returns `true`. -/
theorem likeTweet_unique (store : List LikeRecord) (u t : String) (now : Nat) (fid : String) :
    (store.any (likeMatches u t) = true → likeTweet store u t now fid = (false, store))
    ∧ (store.any (likeMatches u t) = false →
        likeTweet store u t now fid = (true, store ++ [⟨fid, u, t, "like", now⟩])) := by
  constructor
  · intro h
    simp only [likeTweet]
    rw [if_pos ((execQuery_one_pos store (likeMatches u t)).mpr h)]
  · intro h
    simp only [likeTweet, storeAppend]
    rw [if_neg]
    intro hpos
    have := (execQuery_one_pos store (likeMatches u t)).mp hpos
    rw [h] at this
    cases this

theorem likeTweet_unique_witness :
    likeTweet [⟨"l1", "u1", "t1", "like", 0⟩] "u1" "t1" 5 "l2"
        = (false, [⟨"l1", "u1", "t1", "like", 0⟩])
    ∧ likeTweet [] "u1" "t1" 5 "l2"
        = (true, [] ++ [⟨"l2", "u1", "t1", "like", 5⟩]) := by
  constructor
  · exact (likeTweet_unique [⟨"l1", "u1", "t1", "like", 0⟩] "u1" "t1" 5 "l2").1 (by decide)
  · exact (likeTweet_unique [] "u1" "t1" 5 "l2").2 rfl

/-- Projected `users` record attached under the `author_info` join alias
(`selectFields(["address","display_name","bio","avatar_url","verified"])`). -/
structure AuthorInfo where
  address : String
  display_name : Option String
  bio : Option String
  avatar_url : Option String
  verified : Option Bool
deriving DecidableEq

/-- Projected `likes`/`retweets` join entry
(`selectFields(["user","created_at"])`). -/
structure LikeEntry where
  user : String
  created_at : Nat
deriving DecidableEq

/-- Projected `replies`/`quotes` join entry of the public timeline
(`selectFields(["id","author","created_at"])`). -/
structure RefEntry where
  id : String
  author : String
  created_at : Nat
deriving DecidableEq

/-- Projected quoted tweet attached under the `quote_tweet` join alias
(`selectFields(["id","content","author","like_count","created_at"])`),
with its own nested `author_info` join. -/
structure QuotedTweet where
  id : String
  content : Option String
  author : String
  like_count : Option Nat
  created_at : Nat
  author_info : Option AuthorInfo
deriving DecidableEq

/-- The plain fields of a `tweets` record as consumed by `mapTweetData`
(`Record<string, any>` in the source): every field the mapper defaults
is optional. -/
structure TweetFields where
  id : String
  author : String
  content : Option String
  content_type : Option String
  hashtags : Option (List String)
  mentions : Option (List String)
  media_urls : Option (List String)
  reply_to_id : Option String
  retweet_of_id : Option String
  quote_tweet_id : Option String
  like_count : Option Nat
  retweet_count : Option Nat
  reply_count : Option Nat
  quote_count : Option Nat
  timestamp : Option Nat
  created_at : Option Nat
  updated_at : Option Nat
  is_deleted : Option Bool
  visibility : Option String
  engagement_score : Option Nat
deriving DecidableEq

/-- The `TweetWithContext` view object produced by the Result Shaper. -/
structure TweetView where
  id : String
  author : String
  content : Option String
  content_type : String
  hashtags : List String
  mentions : List String
  media_urls : Option (List String)
  reply_to_id : Option String
  retweet_of_id : Option String
  quote_tweet_id : Option String
  like_count : Nat
  retweet_count : Nat
  reply_count : Nat
  quote_count : Nat
  created_at : Option Nat
  updated_at : Option Nat
  is_deleted : Bool
  visibility : String
  engagement_score : Nat
  user_liked : Bool
  user_retweeted : Bool
  author_info : Option AuthorInfo
  quote_tweet : Option QuotedTweet
deriving DecidableEq

/-- Model of `RealSocialService.mapTweetData`: maps raw record fields onto the
stable view type, defaulting absent fields (`|| "text"`, `|| []`,
`|| 0`, `|| false`, `|| "public"`), with `created_at`/`updated_at`
preferring a `timestamp` field when present.  The `author_info` and
`quote_tweet` view fields are not set by the mapper (callers attach
them afterwards). -/
def mapTweetData (t : TweetFields) (user_liked user_retweeted : Bool) : TweetView :=
  { id := t.id
    author := t.author
    content := t.content
    content_type := t.content_type.getD "text"
    hashtags := t.hashtags.getD []
    mentions := t.mentions.getD []
    media_urls := t.media_urls
    reply_to_id := t.reply_to_id
    retweet_of_id := t.retweet_of_id
    quote_tweet_id := t.quote_tweet_id
    like_count := t.like_count.getD 0
    retweet_count := t.retweet_count.getD 0
    reply_count := t.reply_count.getD 0
    quote_count := t.quote_count.getD 0
    created_at := t.timestamp.orElse fun _ => t.created_at
    updated_at := t.timestamp.orElse fun _ => t.updated_at
    is_deleted := t.is_deleted.getD false
    visibility := t.visibility.getD "public"
    engagement_score := t.engagement_score.getD 0
    user_liked := user_liked
    user_retweeted := user_retweeted
    author_info := none
    quote_tweet := none }

/-- A record returned by the public-timeline query: a root tweet with
the six join aliases of `getPublicTimeline`; any of them can be absent
from the response. -/
structure TimelineRecord extends TweetFields where
  author_info : Option AuthorInfo
  quote_tweet : Option QuotedTweet
  likes : Option (List LikeEntry)
  retweets : Option (List LikeEntry)
  replies : Option (List RefEntry)
  quotes : Option (List RefEntry)
deriving DecidableEq

/-- The per-record shaping step of `getPublicTimeline`: counts are the
lengths of the joined sequences (`tweetData.likes || []` etc.),
`user_liked` scans the joined likes for the configured caller address,
and the derived counts overwrite the mapper's stored-counter values. -/
def shapeTimelineRecord (currentUserAddress : Option String) (r : TimelineRecord) :
    TweetView :=
  let likes := r.likes.getD []
  let like_count := likes.length
  let user_liked :=
    match currentUserAddress with
    | some addr => likes.any (fun l => l.user == addr)
    | none => false
  let retweet_count := (r.retweets.getD []).length
  let reply_count := (r.replies.getD []).length
  let quote_count := (r.quotes.getD []).length
  { mapTweetData r.toTweetFields user_liked false with
      like_count := like_count
      retweet_count := retweet_count
      reply_count := reply_count
      quote_count := quote_count
      author_info := r.author_info
      quote_tweet := r.quote_tweet }

/-- Model of `RealSocialService.getPublicTimeline` as a function of the query
outcome: a rejected query (caught) or an absent `records` field yields
`[]`; otherwise each record is shaped. -/
def getPublicTimeline (currentUserAddress : Option String)
    (q : QResult (List TimelineRecord)) : List TweetView :=
  match q with
  | QResult.throw => []
  | QResult.ok none => []
  | QResult.ok (some records) => records.map (shapeTimelineRecord currentUserAddress)

/-- A tweet record with the `author_info` and `quote_tweet` join
aliases, the shape consumed by `getTweetsByAuthor`, `getReplies` and the
joined replies of `getTweetWithReplies`. -/
structure JoinedTweetRecord extends TweetFields where
  author_info : Option AuthorInfo
  quote_tweet : Option QuotedTweet
deriving DecidableEq

/-- The record returned by the `getTweetWithReplies` query: the tweet
with `author_info`, `quote_tweet` and the one-to-many `replies` join. -/
structure TweetDetailRecord extends TweetFields where
  author_info : Option AuthorInfo
  quote_tweet : Option QuotedTweet
  replies : Option (List JoinedTweetRecord)
deriving DecidableEq

/-- JavaScript truthiness of a possibly-absent `content` field
(`!tweetData.content` skips both an absent and an empty string). -/
def hasContent (c : Option String) : Bool :=
  !(c.getD "" == "")

/-- Shape one joined tweet record: map the fields and attach the
`author_info`/`quote_tweet` aliases when present. -/
def shapeJoinedTweet (user_liked : Bool) (r : JoinedTweetRecord) : TweetView :=
  { mapTweetData r.toTweetFields user_liked false with
      author_info := r.author_info
      quote_tweet := r.quote_tweet }

/-- The `likes` existence sub-query used for the `user_liked` flags:
`.whereField("user").equals(addr).whereField("tweet_id").equals(id)
 .limit(1)` — `false` when no caller identity is configured. -/
def userLikedLookup (likesStore : List LikeRecord) (currentUserAddress : Option String)
    (tweetId : String) : Bool :=
  match currentUserAddress with
  | none => false
  | some addr => 0 < (execQuery likesStore (likeMatches addr tweetId) 0 1).length

/-- Result type of `getTweetWithReplies`. -/
structure TweetDetailResult where
  tweet : Option TweetView
  replies : List TweetView
  total_replies : Nat
deriving DecidableEq

/-- Model of `RealSocialService.getTweetWithReplies`: shapes the first returned
record and its joined replies, skipping reply records without a
`content` field; a rejected query or missing/empty `records` yields the
zero-count result. -/
def getTweetWithReplies (likesStore : List LikeRecord) (currentUserAddress : Option String)
    (tweetId : String) (q : QResult (List TweetDetailRecord)) : TweetDetailResult :=
  match q with
  | QResult.throw => ⟨none, [], 0⟩
  | QResult.ok none => ⟨none, [], 0⟩
  | QResult.ok (some []) => ⟨none, [], 0⟩
  | QResult.ok (some (rec :: _)) =>
      let user_liked := userLikedLookup likesStore currentUserAddress tweetId
      let tweet := { mapTweetData rec.toTweetFields user_liked false with
                       author_info := rec.author_info
                       quote_tweet := rec.quote_tweet }
      let replies := ((rec.replies.getD []).filter (fun r => hasContent r.content)).map
        (fun r => shapeJoinedTweet (userLikedLookup likesStore currentUserAddress r.id) r)
      ⟨some tweet, replies, replies.length⟩

/-- Model of `RealSocialService.getReplies`: shapes every returned record that
has a `content` field, skipping the rest; a rejected query or absent
`records` yields `[]`. -/
def getReplies (likesStore : List LikeRecord) (currentUserAddress : Option String)
    (q : QResult (List JoinedTweetRecord)) : List TweetView :=
  match q with
  | QResult.throw => []
  | QResult.ok none => []
  | QResult.ok (some records) =>
      (records.filter (fun r => hasContent r.content)).map
        (fun r => shapeJoinedTweet (userLikedLookup likesStore currentUserAddress r.id) r)

/-- Model of `RealSocialService.getTweetsByAuthor`: shapes every returned record
(no content filter, no like lookup); a rejected query or absent
`records` yields `[]`. -/
def getTweetsByAuthor (q : QResult (List JoinedTweetRecord)) : List TweetView :=
  match q with
  | QResult.throw => []
  | QResult.ok none => []
  | QResult.ok (some records) => records.map (shapeJoinedTweet false)

/-- Model of `RealSocialService.getTweet`: maps the first returned record;
a rejected query or missing/empty `records` yields `null`. -/
def getTweet (q : QResult (List TweetFields)) : Option TweetView :=
  match q with
  | QResult.throw => none
  | QResult.ok none => none
  | QResult.ok (some []) => none
  | QResult.ok (some (t :: _)) => some (mapTweetData t false false)

/-- The plain fields of a `users` record (interface `User` in
src/lib/models.ts). -/
structure UserFields where
  address : String
  display_name : Option String
  bio : Option String
  avatar_url : Option String
  website_url : Option String
  verified : Option Bool
  follower_count : Option Nat
  following_count : Option Nat
  tweet_count : Option Nat
  created_at : Option Nat
  updated_at : Option Nat
  version : Option Nat
  status : Option String
deriving DecidableEq

/-- Model of `RealSocialService.getUser`: the first returned record, or `null`
on a rejected query or missing/empty `records`. -/
def getUser (q : QResult (List UserFields)) : Option UserFields :=
  match q with
  | QResult.throw => none
  | QResult.ok none => none
  | QResult.ok (some []) => none
  | QResult.ok (some (u :: _)) => some u

/-- The record returned by the `getUserWithTweets` query: the user with
the `user_tweets`, `followers` and `following` one-to-many joins; the
joined tweet entries may themselves be null (`tweet && tweet.content`). -/
structure UserJoinRecord extends UserFields where
  user_tweets : Option (List (Option TweetFields))
  followers : Option (List FollowRecord)
  following : Option (List FollowRecord)
deriving DecidableEq

/-- Result type of `getUserWithTweets`. -/
structure UserWithTweetsResult where
  user : Option UserFields
  tweets : List TweetView
  followers : List FollowRecord
  following : List FollowRecord
deriving DecidableEq

/-- The `.filter((tweet) => tweet && tweet.content)` step of
`getUserWithTweets`: keeps the non-null joined tweets that have a
`content` field. -/
def validUserTweets (raw : List (Option TweetFields)) : List TweetFields :=
  raw.filterMap (fun t =>
    match t with
    | some tw => if hasContent tw.content then some tw else none
    | none => none)

/-- The TypeScript default of the `limit` parameter of
`getUserWithTweets`. -/
def defaultUserTweetsLimit : Nat := 50

/-- Model of `RealSocialService.getUserWithTweets`: shapes the first returned
user record — tweets are the joined `user_tweets` filtered for validity,
truncated client-side to `limit` and mapped; `followers` and `following`
are the joined sequences unchanged, and the user's counts are overridden
with their lengths.  A rejected query or missing/empty `records` yields
the empty result. -/
def getUserWithTweets (lim : Nat) (q : QResult (List UserJoinRecord)) :
    UserWithTweetsResult :=
  match q with
  | QResult.throw => ⟨none, [], [], []⟩
  | QResult.ok none => ⟨none, [], [], []⟩
  | QResult.ok (some []) => ⟨none, [], [], []⟩
  | QResult.ok (some (u :: _)) =>
      let tweets := ((validUserTweets (u.user_tweets.getD [])).take lim).map
        (fun t => mapTweetData t false false)
      let followers := u.followers.getD []
      let following := u.following.getD []
      let user := { u.toUserFields with
                      follower_count := some followers.length
                      following_count := some following.length }
      ⟨some user, tweets, followers, following⟩

theorem hasContent_spec (c : Option String) (h : hasContent c = true) :
    c.getD "" ≠ "" := by
  unfold hasContent at h
  simpa using h

/-- Claim C3: every view returned by `getPublicTimeline` carries the
lengths of the joined `likes`, `retweets`, `replies` and `quotes`
sequences (an absent alias counting as empty) as its four counts, in
place of whatever stored counter fields the record carries. -/
theorem timeline_counts_derived (cfg : Option String) (records : List TimelineRecord) :
    (getPublicTimeline cfg (QResult.ok (some records))).map
        (fun t => (t.like_count, t.retweet_count, t.reply_count, t.quote_count))
      = records.map (fun r =>
          ((r.likes.getD []).length, (r.retweets.getD []).length,
            (r.replies.getD []).length, (r.quotes.getD []).length)) := by
  induction records with
  | nil => rfl
  | cons r rs ih =>
      simp only [getPublicTimeline, List.map_cons] at ih ⊢
      rw [ih]
      rfl

/-- Claim C4: a view shaped by `getPublicTimeline` has `user_liked = true`
iff a caller identity is configured and the joined likes contain an entry
whose `user` equals it; with no caller identity the flag is `false`. -/
theorem timeline_user_liked (cfg : Option String) (records : List TimelineRecord)
    (r : TimelineRecord) (hr : r ∈ records) :
    shapeTimelineRecord cfg r ∈ getPublicTimeline cfg (QResult.ok (some records))
    ∧ ((shapeTimelineRecord cfg r).user_liked = true ↔
        ∃ addr, cfg = some addr ∧ ∃ e ∈ r.likes.getD [], e.user = addr) := by
  constructor
  · exact List.mem_map_of_mem _ hr
  · cases cfg with
    | none => simp [shapeTimelineRecord, mapTweetData]
    | some addr =>
        simp [shapeTimelineRecord, mapTweetData, List.any_eq_true]

/-- A root tweet record with content and no optional fields. -/
def blankTweet : TweetFields :=
  ⟨"t1", "a1", some "hello", none, none, none, none, none, none, none,
    none, none, none, none, none, none, none, none, none, none⟩

/-- A second tweet record with content. -/
def blankTweet2 : TweetFields :=
  ⟨"t2", "a2", some "second", none, none, none, none, none, none, none,
    none, none, none, none, none, none, none, none, none, none⟩

/-- A malformed joined record without a `content` field. -/
def badTweet : TweetFields :=
  ⟨"t3", "a3", none, none, none, none, none, none, none, none,
    none, none, none, none, none, none, none, none, none, none⟩

/-- The spec's Scenario B record: a timeline tweet whose joined likes
are entries for users u1 and u2. -/
def demoTimeline : TimelineRecord :=
  ⟨blankTweet, none, none, some [⟨"u1", 1⟩, ⟨"u2", 2⟩], none, none, none⟩

theorem timeline_user_liked_witness :
    (shapeTimelineRecord (some "u1") demoTimeline).user_liked = true
    ∧ (shapeTimelineRecord (some "u3") demoTimeline).user_liked = false := by
  constructor
  · exact (timeline_user_liked (some "u1") [demoTimeline] demoTimeline
      (List.mem_singleton_self demoTimeline)).2.mpr
      ⟨"u1", rfl, ⟨⟨"u1", 1⟩, List.mem_cons_self _ _, rfl⟩⟩
  · have h := (timeline_user_liked (some "u3") [demoTimeline] demoTimeline
      (List.mem_singleton_self demoTimeline)).2
    cases hb : (shapeTimelineRecord (some "u3") demoTimeline).user_liked with
    | false => rfl
    | true =>
        exfalso
        obtain ⟨addr, haddr, e, he, hu⟩ := h.mp hb
        injection haddr with h2
        subst h2
        have he2 : e ∈ [(⟨"u1", 1⟩ : LikeEntry), ⟨"u2", 2⟩] := he
        rcases List.mem_cons.mp he2 with h3 | h3
        · subst h3
          exact absurd hu (by decide)
        · rcases List.mem_cons.mp h3 with h4 | h4
          · subst h4
            exact absurd hu (by decide)
          · cases h4

/-- Claim C6: every element of the replies arrays of
`getTweetWithReplies` and `getReplies` and of the tweets array of
`getUserWithTweets` has a non-empty `content` field; records lacking one
are skipped rather than erring. -/
theorem joined_content_filter :
    (∀ ls cfg tid q v, v ∈ (getTweetWithReplies ls cfg tid q).replies →
        v.content.getD "" ≠ "")
    ∧ (∀ ls cfg q v, v ∈ getReplies ls cfg q → v.content.getD "" ≠ "")
    ∧ (∀ lim q v, v ∈ (getUserWithTweets lim q).tweets → v.content.getD "" ≠ "") := by
  refine ⟨?_, ?_, ?_⟩
  · intro ls cfg tid q v hv
    match q with
    | QResult.throw => exact absurd hv (List.not_mem_nil v)
    | QResult.ok none => exact absurd hv (List.not_mem_nil v)
    | QResult.ok (some []) => exact absurd hv (List.not_mem_nil v)
    | QResult.ok (some (rec :: rest)) =>
        simp only [getTweetWithReplies] at hv
        obtain ⟨r, hrmem, hmap⟩ := List.mem_map.mp hv
        obtain ⟨hrl, hrc⟩ := List.mem_filter.mp hrmem
        rw [← hmap]
        exact hasContent_spec r.content hrc
  · intro ls cfg q v hv
    match q with
    | QResult.throw => exact absurd hv (List.not_mem_nil v)
    | QResult.ok none => exact absurd hv (List.not_mem_nil v)
    | QResult.ok (some records) =>
        simp only [getReplies] at hv
        obtain ⟨r, hrmem, hmap⟩ := List.mem_map.mp hv
        obtain ⟨hrl, hrc⟩ := List.mem_filter.mp hrmem
        rw [← hmap]
        exact hasContent_spec r.content hrc
  · intro lim q v hv
    match q with
    | QResult.throw => exact absurd hv (List.not_mem_nil v)
    | QResult.ok none => exact absurd hv (List.not_mem_nil v)
    | QResult.ok (some []) => exact absurd hv (List.not_mem_nil v)
    | QResult.ok (some (u :: rest)) =>
        simp only [getUserWithTweets] at hv
        obtain ⟨t, htmem, hmap⟩ := List.mem_map.mp hv
        have ht2 : t ∈ validUserTweets (u.user_tweets.getD []) :=
          List.mem_of_mem_take htmem
        simp only [validUserTweets] at ht2
        obtain ⟨x, hx, hmatch⟩ := List.mem_filterMap.mp ht2
        rw [← hmap]
        cases x with
        | none => cases hmatch
        | some tw =>
            have hm2 : (if hasContent tw.content = true then some tw else none)
                = some t := hmatch
            by_cases hc : hasContent tw.content = true
            · rw [if_pos hc] at hm2
              injection hm2 with htw
              rw [← htw]
              exact hasContent_spec tw.content hc
            · rw [if_neg hc] at hm2
              cases hm2

/-- A valid joined reply (content present) and a malformed one. -/
def demoGoodReply : JoinedTweetRecord := ⟨blankTweet, none, none⟩

def demoGoodReply2 : JoinedTweetRecord := ⟨blankTweet2, none, none⟩

def demoBadReply : JoinedTweetRecord := ⟨badTweet, none, none⟩

/-- A tweet-with-replies record joining one valid and one malformed reply. -/
def demoDetail : TweetDetailRecord :=
  ⟨blankTweet, none, none, some [demoGoodReply, demoBadReply]⟩

/-- A user record joining two valid tweets, a null entry, followers and
following. -/
def demoUserJoin : UserJoinRecord :=
  ⟨⟨"a1", none, none, none, none, none, none, none, none, none, none, none, none⟩,
    some [some blankTweet, none, some blankTweet2], some [followA], some []⟩

theorem joined_content_filter_witness :
    (shapeJoinedTweet false demoGoodReply).content.getD "" ≠ ""
    ∧ (shapeJoinedTweet false demoGoodReply2).content.getD "" ≠ ""
    ∧ (mapTweetData blankTweet false false).content.getD "" ≠ "" := by
  refine ⟨?_, ?_, ?_⟩
  · exact joined_content_filter.1 [] none "t1"
      (QResult.ok (some [demoDetail])) (shapeJoinedTweet false demoGoodReply) (by decide)
  · exact joined_content_filter.2.1 [] none
      (QResult.ok (some [demoBadReply, demoGoodReply2]))
      (shapeJoinedTweet false demoGoodReply2) (by decide)
  · exact joined_content_filter.2.2 5 (QResult.ok (some [demoUserJoin]))
      (mapTweetData blankTweet false false) (by decide)

/-- Claim C7: `getUserWithTweets` returns at most `limit` tweets, taken
from the front of the full joined and validity-filtered `user_tweets`
sequence (the join itself is unlimited and truncation happens
client-side), while the joined `followers` and `following` sequences are
returned untruncated; the TypeScript default of `limit` is 50. -/
theorem user_tweets_client_truncation (lim : Nat) (q : QResult (List UserJoinRecord)) :
    (getUserWithTweets lim q).tweets.length ≤ lim
    ∧ (∀ u rest, q = QResult.ok (some (u :: rest)) →
        (getUserWithTweets lim q).tweets
            = ((validUserTweets (u.user_tweets.getD [])).take lim).map
                (fun t => mapTweetData t false false)
          ∧ (getUserWithTweets lim q).followers = u.followers.getD []
          ∧ (getUserWithTweets lim q).following = u.following.getD [])
    ∧ defaultUserTweetsLimit = 50 := by
  refine ⟨?_, ?_, rfl⟩
  · match q with
    | QResult.throw => exact Nat.zero_le lim
    | QResult.ok none => exact Nat.zero_le lim
    | QResult.ok (some []) => exact Nat.zero_le lim
    | QResult.ok (some (u :: rest)) =>
        show (((validUserTweets (u.user_tweets.getD [])).take lim).map
          (fun t => mapTweetData t false false)).length ≤ lim
        rw [List.length_map]
        exact List.length_take_le lim _
  · intro u rest hq
    subst hq
    exact ⟨rfl, rfl, rfl⟩

theorem user_tweets_client_truncation_witness :
    (getUserWithTweets 1 (QResult.ok (some [demoUserJoin]))).tweets
        = ((validUserTweets (demoUserJoin.user_tweets.getD [])).take 1).map
            (fun t => mapTweetData t false false)
    ∧ (getUserWithTweets 1 (QResult.ok (some [demoUserJoin]))).tweets.length ≤ 1
    ∧ (getUserWithTweets 1 (QResult.ok (some [demoUserJoin]))).followers = [followA] := by
  obtain ⟨hlen, hcase, _⟩ :=
    user_tweets_client_truncation 1 (QResult.ok (some [demoUserJoin]))
  obtain ⟨ht, hfers, hfing⟩ := hcase demoUserJoin [] rfl
  refine ⟨ht, hlen, ?_⟩
  rw [hfers]
  rfl

/-- A timeline record with every join alias absent from the response. -/
def stripAliases (r : TimelineRecord) : TimelineRecord :=
  { r with likes := none, retweets := none, replies := none, quotes := none,
           author_info := none, quote_tweet := none }

/-- A user join record with every join alias absent from the response. -/
def stripUserAliases (u : UserJoinRecord) : UserJoinRecord :=
  { u with user_tweets := none, followers := none, following := none }

/-- Claim C8: the Result Shaper degrades gracefully — a missing joined
alias is treated as an empty sequence or null, and every read operation
returns its empty default when the underlying query execution throws or
returns no `records` field, instead of propagating the error. -/
theorem shaper_graceful_degradation :
    (∀ cfg, getPublicTimeline cfg QResult.throw = []
        ∧ getPublicTimeline cfg (QResult.ok none) = [])
    ∧ (getTweetsByAuthor QResult.throw = [] ∧ getTweetsByAuthor (QResult.ok none) = [])
    ∧ (∀ ls cfg tid, getTweetWithReplies ls cfg tid QResult.throw = ⟨none, [], 0⟩
        ∧ getTweetWithReplies ls cfg tid (QResult.ok none) = ⟨none, [], 0⟩)
    ∧ (getTweet QResult.throw = none ∧ getTweet (QResult.ok none) = none)
    ∧ (∀ ls cfg, getReplies ls cfg QResult.throw = []
        ∧ getReplies ls cfg (QResult.ok none) = [])
    ∧ (getUser QResult.throw = none ∧ getUser (QResult.ok none) = none)
    ∧ (∀ lim, getUserWithTweets lim QResult.throw = ⟨none, [], [], []⟩
        ∧ getUserWithTweets lim (QResult.ok none) = ⟨none, [], [], []⟩)
    ∧ (isFollowingQuery QResult.throw = false
        ∧ isFollowingQuery (QResult.ok none) = false)
    ∧ (∀ cfg r, (shapeTimelineRecord cfg (stripAliases r)).like_count = 0
        ∧ (shapeTimelineRecord cfg (stripAliases r)).retweet_count = 0
        ∧ (shapeTimelineRecord cfg (stripAliases r)).reply_count = 0
        ∧ (shapeTimelineRecord cfg (stripAliases r)).quote_count = 0
        ∧ (shapeTimelineRecord cfg (stripAliases r)).user_liked = false
        ∧ (shapeTimelineRecord cfg (stripAliases r)).author_info = none
        ∧ (shapeTimelineRecord cfg (stripAliases r)).quote_tweet = none)
    ∧ (∀ lim u rest,
        (getUserWithTweets lim (QResult.ok (some (stripUserAliases u :: rest)))).tweets = []
        ∧ (getUserWithTweets lim
            (QResult.ok (some (stripUserAliases u :: rest)))).followers = []
        ∧ (getUserWithTweets lim
            (QResult.ok (some (stripUserAliases u :: rest)))).following = []) := by
  refine ⟨fun cfg => ⟨rfl, rfl⟩, ⟨rfl, rfl⟩, fun ls cfg tid => ⟨rfl, rfl⟩, ⟨rfl, rfl⟩,
    fun ls cfg => ⟨rfl, rfl⟩, ⟨rfl, rfl⟩, fun lim => ⟨rfl, rfl⟩, ⟨rfl, rfl⟩, ?_, ?_⟩
  · intro cfg r
    cases cfg <;> exact ⟨rfl, rfl, rfl, rfl, rfl, rfl, rfl⟩
  · intro lim u rest
    refine ⟨?_, rfl, rfl⟩
    simp [getUserWithTweets, stripUserAliases, validUserTweets]
